import Mathlib

/-!
Shallow embedding of the authentication/authorization core of the
`template-fastapi-rest` repository:

* `src/auth/middleware.py`  — `SecurityMiddleware` (path classification,
  token-bucket rate limiting, dispatch),
* `src/auth/handlers/jwt_handler.py`  — `JWTHandler` (token creation and
  verification on top of PyJWT's `jwt.encode` / `jwt.decode`),
* `src/auth/handlers/api_key_handler.py` — `APIKeyHandler` (in-memory key
  registry),
* `src/auth/handlers/hybrid_handler.py` — `HybridHandler`,
* `src/auth/auth_factory.py` — handler construction.

Modelling conventions: Python `datetime` values are epoch seconds (`ℤ`);
wall-clock instants fed to the rate limiter are rationals (`ℚ`) so that
quantities such as `60/R` seconds are exact; Python dicts are association
lists updated in place; the SHA-256 digest of `hash_api_key` is an
arbitrary injective function on strings; JSON claim values are the
inductive `JVal`.
-/

namespace FastapiAuth

/-- First-match lookup in an association list (Python `dict.get`). -/
def alistGet {α : Type} (l : List (String × α)) (k : String) : Option α :=
  match l with
  | [] => none
  | (k2, v) :: rest => if k2 = k then some v else alistGet rest k

/-- Key assignment in an association list (Python `d[k] = v`): replaces the
first binding of `k`, or appends a new binding. -/
def alistSet {α : Type} (l : List (String × α)) (k : String) (v : α) :
    List (String × α) :=
  match l with
  | [] => [(k, v)]
  | (k2, v2) :: rest =>
      if k2 = k then (k2, v) :: rest else (k2, v2) :: alistSet rest k v

/-- Python `path.startswith(prefix_str)` as a character-list prefix
test. -/
def str_startswith (s pre : String) : Bool :=
  pre.data.isPrefixOf s.data

/-- Python `int()` applied to a rational: truncation toward zero. -/
def pyInt (q : ℚ) : ℤ :=
  if 0 ≤ q then ⌊q⌋ else -⌊-q⌋

/-! ## Rate limiter (`SecurityMiddleware.check_rate_limit`) -/

/-- Rate-limiting configuration read in `SecurityMiddleware.__init__`
(`rate_limit_enabled`, `rate_limit_requests_per_minute`,
`rate_limit_burst_size`). -/
structure RLConfig where
  rate_limit_enabled : Bool
  requests_per_minute : ℕ
  burst_size : ℕ
deriving DecidableEq

/-- One client's entry of `self.rate_limits`: the dict
`{"requests": [...], "burst_tokens": n, "last_refill": t}`. -/
structure ClientData where
  requests : List ℚ
  burst_tokens : ℤ
  last_refill : ℚ
deriving DecidableEq

/-- `self.rate_limits`: client identifier → bucket. -/
abbrev RateMap : Type := List (String × ClientData)

/-- `SecurityMiddleware.check_rate_limit` (middleware.py lines 110-161):
lazily creates the client's bucket, refills burst tokens by
`int(time_passed * requests_per_minute / 60)` capped at the burst size,
prunes window entries that are 60 seconds old or older, then denies when
the pruned window already holds `requests_per_minute` entries or no burst
token is left, and otherwise records the request and consumes a token. -/
def check_rate_limit (cfg : RLConfig) (st : RateMap) (client_id : String)
    (now : ℚ) : Bool × RateMap :=
  if ¬ cfg.rate_limit_enabled then (true, st)
  else
    let cd := (alistGet st client_id).getD
      ⟨[], (cfg.burst_size : ℤ), now⟩
    let time_passed := now - cd.last_refill
    let tokens_to_add := pyInt (time_passed * (cfg.requests_per_minute : ℚ) / 60)
    let tokens := min (cfg.burst_size : ℤ) (cd.burst_tokens + tokens_to_add)
    let reqs := cd.requests.filter (fun t => now - t < 60)
    if reqs.length ≥ cfg.requests_per_minute then
      (false, alistSet st client_id ⟨reqs, tokens, now⟩)
    else if tokens ≤ 0 then
      (false, alistSet st client_id ⟨reqs, tokens, now⟩)
    else
      (true, alistSet st client_id ⟨reqs ++ [now], tokens - 1, now⟩)

/-- A sequence of `check_rate_limit` calls for one client at the given
instants; returns the list of allow/deny decisions and the final map. -/
def run_checks (cfg : RLConfig) (st : RateMap) (client_id : String) :
    List ℚ → List Bool × RateMap
  | [] => ([], st)
  | t :: ts =>
      let r := check_rate_limit cfg st client_id t
      let rest := run_checks cfg r.2 client_id ts
      (r.1 :: rest.1, rest.2)

/-! ## JWT codec (`JWTHandler` over PyJWT) -/

/-- A JSON claim value as it occurs in the token payloads of this code
base: strings, integers (also standing for epoch timestamps), lists of
strings (roles / permissions) and booleans. -/
inductive JVal where
  | s (v : String)
  | i (n : ℤ)
  | l (v : List String)
  | b (v : Bool)
deriving DecidableEq

/-- A token payload: the Python dict passed to `jwt.encode`. -/
abbrev Payload : Type := List (String × JVal)

/-- `payload.update(additional_claims)`: assign every binding of the
second dict into the first, overriding existing keys. -/
def dictUpdate (p : Payload) (extra : Payload) : Payload :=
  extra.foldl (fun acc kv => alistSet acc kv.1 kv.2) p

/-- Configuration fields read in `JWTHandler.__init__`. -/
structure JWTConfig where
  secret_key : String
  algorithm : String
  access_token_expire_minutes : ℤ
  issuer : String
deriving DecidableEq

/-- The result of `jwt.encode(payload, key, algorithm=alg)`: an opaque
signed blob carrying the payload, the signing key and the algorithm of
its header. -/
structure SignedToken where
  payload : Payload
  key : String
  alg : String
deriving DecidableEq

/-- `JWTHandler.create_access_token` (jwt_handler.py lines 38-77): the
base payload dict literal, updated with `additional_claims`, signed with
the configured secret and algorithm.  `now` is `datetime.utcnow()` in
epoch seconds. -/
def create_access_token (cfg : JWTConfig) (user_id username : String)
    (roles permissions : List String) (additional_claims : Payload)
    (now : ℤ) : SignedToken :=
  let payload : Payload :=
    [ ("sub", .s user_id)
    , ("username", .s username)
    , ("user_id", .s user_id)
    , ("roles", .l roles)
    , ("permissions", .l permissions)
    , ("exp", .i (now + cfg.access_token_expire_minutes * 60))
    , ("iat", .i now)
    , ("iss", .s cfg.issuer)
    , ("type", .s "access") ]
  ⟨dictUpdate payload additional_claims, cfg.secret_key, cfg.algorithm⟩

/-- The error kinds `JWTHandler.verify_token` can surface, all as 401
`HTTPException`s: `expired` is PyJWT's `ExpiredSignatureError` ("Token
has expired"), `malformed` is any other `InvalidTokenError` from
`jwt.decode` ("Invalid token: ..."), `issuerMismatch` is the handler's
own "Invalid token issuer", `unsupportedType` its "Invalid token
type". -/
inductive VerifyErr where
  | expired
  | malformed
  | issuerMismatch
  | unsupportedType
deriving DecidableEq

/-- Reading a registered integer claim the way PyJWT does with
`int(payload[k])`: absent, convertible (Python `int` also accepts
`bool`), or structurally invalid. -/
inductive ClaimParse where
  | absent
  | bad
  | val (n : ℤ)
deriving DecidableEq

/-- Parse of one registered claim of a payload. -/
def intClaim (p : Payload) (k : String) : ClaimParse :=
  match alistGet p k with
  | none => .absent
  | some (.i n) => .val n
  | some (.b bv) => .val (if bv then 1 else 0)
  | some _ => .bad

/-- `jwt.decode(token, key, algorithms=[alg], options={"verify_iss":
True})` as called in `verify_token`: the signature (key and algorithm)
is verified first, then the registered claims — a structurally invalid
`iat`, a structurally invalid or not-yet-valid `nbf`, a structurally
invalid `exp`, and an `aud` claim with no expected audience all raise
an `InvalidTokenError` (modelled `malformed`); an `exp` at or before
`now` raises `ExpiredSignatureError` (modelled `expired`).  No issuer
is passed to `jwt.decode`, so its own issuer validation is a no-op. -/
def pyjwt_decode (tok : SignedToken) (key alg : String) (now : ℤ) :
    Except VerifyErr Payload :=
  if tok.key = key ∧ tok.alg = alg then
    match intClaim tok.payload "iat" with
    | .bad => .error .malformed
    | _ =>
      match intClaim tok.payload "nbf" with
      | .bad => .error .malformed
      | .val n =>
          if now < n then .error .malformed
          else
            match intClaim tok.payload "exp" with
            | .bad => .error .malformed
            | .val e =>
                if e ≤ now then .error .expired
                else if (alistGet tok.payload "aud").isSome then
                  .error .malformed
                else .ok tok.payload
            | .absent =>
                if (alistGet tok.payload "aud").isSome then
                  .error .malformed
                else .ok tok.payload
      | .absent =>
          match intClaim tok.payload "exp" with
          | .bad => .error .malformed
          | .val e =>
              if e ≤ now then .error .expired
              else if (alistGet tok.payload "aud").isSome then
                .error .malformed
              else .ok tok.payload
          | .absent =>
              if (alistGet tok.payload "aud").isSome then
                .error .malformed
              else .ok tok.payload
  else .error .malformed

/-- The `TokenData` model populated by `verify_token`.  Optional claim
values keep their JSON form; `exp` and `iat` are the epoch seconds fed
to `datetime.fromtimestamp`, with the Python default `0` when absent. -/
structure TokenData where
  user_id : Option JVal
  username : Option JVal
  email : Option JVal
  roles : JVal
  permissions : JVal
  exp : ℤ
  iat : ℤ
  iss : Option JVal
  sub : Option JVal
deriving DecidableEq

/-- `payload.get(k, default)` for the integer timestamp fields of
`TokenData` (after `pyjwt_decode` succeeded these are integers whenever
present). -/
def intClaimD (p : Payload) (k : String) : ℤ :=
  match intClaim p k with
  | .val n => n
  | _ => 0

/-- `JWTHandler.verify_token` (jwt_handler.py lines 105-162): decode
with signature and registered-claim validation, then the handler's own
issuer-equality check, then its token-type membership check, then the
construction of `TokenData`.  `payload.get("type", "access")` supplies
the default token type. -/
def verify_token (cfg : JWTConfig) (tok : SignedToken) (now : ℤ) :
    Except VerifyErr TokenData :=
  match pyjwt_decode tok cfg.secret_key cfg.algorithm now with
  | .error e => .error e
  | .ok payload =>
      if alistGet payload "iss" ≠ some (.s cfg.issuer) then
        .error .issuerMismatch
      else
        let token_type := (alistGet payload "type").getD (.s "access")
        if token_type ≠ JVal.s "access" ∧ token_type ≠ JVal.s "refresh" then
          .error .unsupportedType
        else
          .ok
            { user_id := alistGet payload "user_id"
            , username := alistGet payload "username"
            , email := alistGet payload "email"
            , roles := (alistGet payload "roles").getD (.l [])
            , permissions := (alistGet payload "permissions").getD (.l [])
            , exp := intClaimD payload "exp"
            , iat := intClaimD payload "iat"
            , iss := alistGet payload "iss"
            , sub := alistGet payload "sub" }

/-- The verification order the specification asserts, as a function:
signature check → issuer equality check → token-type membership check →
expiry check, first failure short-circuiting with its own error kind.
Written from the spec's words, to be compared with `verify_token`. -/
def verify_token_spec_order (cfg : JWTConfig) (tok : SignedToken)
    (now : ℤ) : Except VerifyErr Payload :=
  if ¬ (tok.key = cfg.secret_key ∧ tok.alg = cfg.algorithm) then
    .error .malformed
  else if alistGet tok.payload "iss" ≠ some (.s cfg.issuer) then
    .error .issuerMismatch
  else if ((alistGet tok.payload "type").getD (.s "access")
      ≠ JVal.s "access"
      ∧ (alistGet tok.payload "type").getD (.s "access")
      ≠ JVal.s "refresh") then
    .error .unsupportedType
  else
    match intClaim tok.payload "exp" with
    | .val e => if e ≤ now then .error .expired else .ok tok.payload
    | _ => .ok tok.payload

/-- The signature stage of `jwt.decode`: the token must have been
signed with the expected key and carry the expected algorithm. -/
def sig_ok (cfg : JWTConfig) (tok : SignedToken) : Bool :=
  decide (tok.key = cfg.secret_key) && decide (tok.alg = cfg.algorithm)

/-- A registered-claim failure that `jwt.decode` reports as a plain
`InvalidTokenError`: a structurally invalid `iat`, `nbf` or `exp`
claim, or a not-yet-valid `nbf`. -/
def claims_structurally_bad (p : Payload) (now : ℤ) : Bool :=
  (match intClaim p "iat" with
    | .bad => true
    | _ => false)
  || (match intClaim p "nbf" with
    | .bad => true
    | .val n => decide (now < n)
    | .absent => false)
  || (match intClaim p "exp" with
    | .bad => true
    | _ => false)

/-- The expiry condition of `jwt.decode`: an integer `exp` claim at or
before `now`. -/
def token_expired (p : Payload) (now : ℤ) : Bool :=
  match intClaim p "exp" with
  | .val e => decide (e ≤ now)
  | _ => false

/-- The issuer-equality check of `verify_token`. -/
def iss_matches (cfg : JWTConfig) (p : Payload) : Bool :=
  decide (alistGet p "iss" = some (.s cfg.issuer))

/-- The token-type membership check of `verify_token` (with the Python
default `"access"` for a missing claim). -/
def type_supported (p : Payload) : Bool :=
  decide ((alistGet p "type").getD (.s "access") = JVal.s "access")
  || decide ((alistGet p "type").getD (.s "access") = JVal.s "refresh")

/-- The payload keys `create_access_token` sets itself, together with
the registered claims (`nbf`, `aud`) that `jwt.decode` validates:
additional claims under these keys interfere with the round trip. -/
def reserved_claims : List String :=
  ["sub", "username", "user_id", "roles", "permissions", "exp", "iat",
   "iss", "type", "nbf", "aud"]

/-! ## API-key registry (`APIKeyHandler`) -/

/-- The `APIKeyData` model (models.py): one stored key record. -/
structure APIKeyRecord where
  key_id : String
  name : String
  user_id : Option String
  permissions : List String
  rate_limit : Option ℤ
  expires_at : Option ℤ
  is_active : Bool
  created_at : ℤ
  last_used : Option ℤ
deriving DecidableEq

/-- The handler's two in-memory dicts: `_api_keys : key_id → record` and
`_key_hashes : hash → key_id`. -/
structure KeyState where
  api_keys : List (String × APIKeyRecord)
  key_hashes : List (String × String)
deriving DecidableEq

/-- The empty registry of a fresh `APIKeyHandler`. -/
def KeyState.empty : KeyState := ⟨[], []⟩

/-- `APIKeyHandler.create_api_key` (api_key_handler.py lines 56-96).
`raw_key` and `key_id` stand for the `secrets.token_urlsafe` outputs
drawn inside the method; `hash` is `hash_api_key` (SHA-256 hex digest).
Returns the raw key, the record, and the updated registry. -/
def create_api_key (hash : String → String) (st : KeyState)
    (raw_key key_id name : String) (user_id : Option String)
    (permissions : List String) (rate_limit expires_at : Option ℤ)
    (now : ℤ) : (String × APIKeyRecord) × KeyState :=
  let rec0 : APIKeyRecord :=
    { key_id := key_id
    , name := name
    , user_id := user_id
    , permissions := permissions
    , rate_limit := rate_limit
    , expires_at := expires_at
    , is_active := true
    , created_at := now
    , last_used := none }
  ((raw_key, rec0),
    ⟨alistSet st.api_keys key_id rec0,
     alistSet st.key_hashes (hash raw_key) key_id⟩)

/-- `APIKeyHandler.validate_api_key` (api_key_handler.py lines 98-132):
an empty string is falsy and rejected at once; then hash lookup, record
lookup, `is_active` check and expiry check (`expires_at < utcnow()`);
on success `last_used` is set to `now` in place.  Returns the record (if
valid) and the possibly mutated registry. -/
def validate_api_key (hash : String → String) (st : KeyState)
    (api_key : String) (now : ℤ) : Option APIKeyRecord × KeyState :=
  if api_key = "" then (none, st)
  else
    match alistGet st.key_hashes (hash api_key) with
    | none => (none, st)
    | some key_id =>
        match alistGet st.api_keys key_id with
        | none => (none, st)
        | some rec0 =>
            if ¬ rec0.is_active then (none, st)
            else if (rec0.expires_at.map (fun e => decide (e < now))).getD false then
              (none, st)
            else
              let rec1 := { rec0 with last_used := some now }
              (some rec1, ⟨alistSet st.api_keys key_id rec1, st.key_hashes⟩)

/-- `APIKeyHandler.revoke_api_key` (api_key_handler.py lines 197-210):
sets `is_active` to false when the key id exists. -/
def revoke_api_key (st : KeyState) (key_id : String) : Bool × KeyState :=
  match alistGet st.api_keys key_id with
  | none => (false, st)
  | some rec0 =>
      (true,
        ⟨alistSet st.api_keys key_id { rec0 with is_active := false },
         st.key_hashes⟩)

/-- `APIKeyHandler.update_api_key` (api_key_handler.py lines 241-280):
overwrites exactly the fields whose argument is not `None`. -/
def update_api_key (st : KeyState) (key_id : String)
    (name : Option String) (permissions : Option (List String))
    (rate_limit : Option ℤ) (expires_at : Option ℤ)
    (is_active : Option Bool) : Bool × KeyState :=
  match alistGet st.api_keys key_id with
  | none => (false, st)
  | some rec0 =>
      let rec1 :=
        { rec0 with
          name := name.getD rec0.name
          permissions := permissions.getD rec0.permissions
          rate_limit := match rate_limit with
            | some r => some r
            | none => rec0.rate_limit
          expires_at := match expires_at with
            | some e => some e
            | none => rec0.expires_at
          is_active := is_active.getD rec0.is_active }
      (true, ⟨alistSet st.api_keys key_id rec1, st.key_hashes⟩)

/-- One operation of a registry history.  `create` carries the two
random strings `secrets.token_urlsafe` produced inside the call. -/
inductive KeyOp where
  | create (raw_key key_id name : String) (user_id : Option String)
      (permissions : List String) (rate_limit expires_at : Option ℤ)
      (now : ℤ)
  | revoke (key_id : String)
  | update (key_id : String) (name : Option String)
      (permissions : Option (List String)) (rate_limit : Option ℤ)
      (expires_at : Option ℤ) (is_active : Option Bool)
  | validate (raw_key : String) (now : ℤ)
deriving DecidableEq

/-- The registry state reached after one operation. -/
def key_step (hash : String → String) (st : KeyState) : KeyOp → KeyState
  | .create raw_key key_id name user_id permissions rate_limit
      expires_at now =>
      (create_api_key hash st raw_key key_id name user_id permissions
        rate_limit expires_at now).2
  | .revoke key_id => (revoke_api_key st key_id).2
  | .update key_id name permissions rate_limit expires_at is_active =>
      (update_api_key st key_id name permissions rate_limit expires_at
        is_active).2
  | .validate raw_key now => (validate_api_key hash st raw_key now).2

/-- The registry state reached after a sequence of operations. -/
def run_key_ops (hash : String → String) (st : KeyState) :
    List KeyOp → KeyState
  | [] => st
  | op :: ops => run_key_ops hash (key_step hash st op) ops

/-- The raw key registered by a `create` operation, if any. -/
def KeyOp.createdRaw : KeyOp → Option String
  | .create raw_key _ _ _ _ _ _ _ => some raw_key
  | _ => none

/-- The key id registered by a `create` operation, if any. -/
def KeyOp.createdId : KeyOp → Option String
  | .create _ key_id _ _ _ _ _ _ => some key_id
  | _ => none

/-- An operation that can turn key `key_id` active again or rebind the
raw key `raw`: an `update` of that key with `is_active=True`, or a
`create` reusing that key id or that raw string. -/
def reactivates (key_id raw : String) : KeyOp → Prop
  | .update k _ _ _ _ ia => k = key_id ∧ ia = some true
  | .create r k _ _ _ _ _ _ => r = raw ∨ k = key_id
  | _ => False

instance (key_id raw : String) (op : KeyOp) :
    Decidable (reactivates key_id raw op) := by
  cases op <;> simp [reactivates] <;> infer_instance

/-! ## Request-level authentication (`JWTHandler.authenticate_request`,
`APIKeyHandler.authenticate_request`, `HybridHandler`) -/

/-- The 401 errors the two concrete handlers raise from
`authenticate_request`. -/
inductive AuthError where
  | missingAuthHeader
  | tokenVerify (e : VerifyErr)
  | missingApiKey
  | invalidApiKey
deriving DecidableEq

/-- The slice of `SecurityContext` these handlers populate. -/
structure SCtx where
  auth_type : String
  is_authenticated : Bool
  is_authorized : Bool
  user_id : Option JVal
  username : Option JVal
  roles : JVal
  permissions : JVal
deriving DecidableEq

/-- The credential-bearing part of a request: the bearer token already
extracted from the `Authorization` header (`none` when the header is
missing or its scheme is not `bearer`), and the raw values of the API
key header and query parameter. -/
structure AuthRequest where
  bearer_token : Option SignedToken
  api_key_header_value : Option String
  api_key_query_value : Option String
deriving DecidableEq

/-- A present but empty header or query value is falsy in Python. -/
def nonEmptyStr (o : Option String) : Option String :=
  match o with
  | some s => if s = "" then none else some s
  | none => none

/-- `APIKeyHandler.extract_api_key_from_request` (lines 134-154): the
header wins when truthy, else the query parameter when truthy. -/
def extract_api_key (req : AuthRequest) : Option String :=
  match nonEmptyStr req.api_key_header_value with
  | some k => some k
  | none => nonEmptyStr req.api_key_query_value

/-- `JWTHandler.authenticate_request` (jwt_handler.py lines 186-229):
missing token → 401; otherwise the `verify_token` error propagates, or
an authenticated and authorized JWT context is built. -/
def jwt_authenticate (cfg : JWTConfig) (req : AuthRequest) (now : ℤ) :
    Except AuthError SCtx :=
  match req.bearer_token with
  | none => .error .missingAuthHeader
  | some tok =>
      match verify_token cfg tok now with
      | .error e => .error (.tokenVerify e)
      | .ok td =>
          .ok
            { auth_type := "jwt"
            , is_authenticated := true
            , is_authorized := true
            , user_id := td.user_id
            , username := td.username
            , roles := td.roles
            , permissions := td.permissions }

/-- `APIKeyHandler.authenticate_request` (api_key_handler.py lines
156-195): missing key → 401, invalid key → 401, else an authenticated
context (`roles = ["api_key_user"]`); `validate_api_key` may update
`last_used`, so the registry is threaded through. -/
def api_key_authenticate (hash : String → String) (st : KeyState)
    (req : AuthRequest) (now : ℤ) : Except AuthError SCtx × KeyState :=
  match extract_api_key req with
  | none => (.error .missingApiKey, st)
  | some k =>
      match validate_api_key hash st k now with
      | (none, st2) => (.error .invalidApiKey, st2)
      | (some rec0, st2) =>
          (.ok
            { auth_type := "api_key"
            , is_authenticated := true
            , is_authorized := true
            , user_id := rec0.user_id.map JVal.s
            , username := some (.s rec0.name)
            , roles := .l ["api_key_user"]
            , permissions := .l rec0.permissions }, st2)

/-- `HybridHandler.authenticate_request` (hybrid_handler.py lines
30-64): try the preferred strategy; on `HTTPException` try the other;
when both fail re-raise the first-tried strategy's error. -/
def hybrid_authenticate (prefer_jwt : Bool) (cfg : JWTConfig)
    (hash : String → String) (st : KeyState) (req : AuthRequest)
    (now : ℤ) : Except AuthError SCtx × KeyState :=
  if prefer_jwt then
    match jwt_authenticate cfg req now with
    | .ok c => (.ok c, st)
    | .error jwt_error =>
        match api_key_authenticate hash st req now with
        | (.ok c, st2) => (.ok c, st2)
        | (.error _, st2) => (.error jwt_error, st2)
  else
    match api_key_authenticate hash st req now with
    | (.ok c, st2) => (.ok c, st2)
    | (.error api_error, st2) =>
        match jwt_authenticate cfg req now with
        | .ok c => (.ok c, st2)
        | .error _ => (.error api_error, st2)

/-! ## Security middleware (`SecurityMiddleware`) -/

/-- The configuration state `SecurityMiddleware.__init__` (middleware.py
lines 21-59) leaves behind.  `factory_raises` records whether
`AuthFactory.create_handler(security_config)` raised (for example a
`jwt` or `hybrid` auth type with no `jwt_secret_key`); in that case the
constructor prints a warning and sets `self.enabled = False`. -/
structure MwConfig where
  config_enabled : Bool
  factory_raises : Bool
  excluded_paths : List String
  protected_paths : List String
  rl : RLConfig
deriving DecidableEq

/-- The value of `self.enabled` after `__init__`. -/
def mw_enabled (mw : MwConfig) : Bool :=
  mw.config_enabled && !mw.factory_raises

/-- `SecurityMiddleware.is_path_excluded` (lines 61-74): does any
configured excluded path prefix the request path? -/
def is_path_excluded (mw : MwConfig) (path : String) : Bool :=
  mw.excluded_paths.any (fun e => str_startswith path e)

/-- `SecurityMiddleware.is_path_protected` (lines 76-93): with no
protected paths configured every non-excluded path is protected,
otherwise any protected-path prefix match protects. -/
def is_path_protected (mw : MwConfig) (path : String) : Bool :=
  if mw.protected_paths = [] then ¬ is_path_excluded mw path
  else mw.protected_paths.any (fun p => str_startswith path p)

/-- One inbound request as seen by `dispatch`: the URL path, the
client identifier `get_client_identifier` computes, and the
`SecurityContext` the configured auth handler produces for it (an
unauthenticated context when the handler raised `HTTPException`, which
is what `create_security_context` returns in that case).  No
`custom_auth_check` is configured. -/
structure MwRequest where
  path : String
  client_id : String
  auth_ctx : SCtx
deriving DecidableEq

/-- The observable outcome of `SecurityMiddleware.dispatch`:
`forwarded` is `call_next` reached with no rate-limit check and no
authentication (middleware disabled, excluded path, or unprotected
path); the error outcomes are the structured 429/401/403 responses;
`forwardedAuthenticated` is `call_next` reached after successful
authentication, with the security headers added. -/
inductive Outcome where
  | forwarded
  | tooManyRequests
  | unauthorized
  | forbidden
  | forwardedAuthenticated
deriving DecidableEq

/-- `SecurityMiddleware.dispatch` (middleware.py lines 219-301): skip
everything when disabled; forward excluded paths; forward unprotected
paths; otherwise rate-limit, then authenticate, then authorize. -/
def dispatch (mw : MwConfig) (st : RateMap) (req : MwRequest)
    (now : ℚ) : Outcome × RateMap :=
  if ¬ mw_enabled mw then (.forwarded, st)
  else if is_path_excluded mw req.path then (.forwarded, st)
  else if ¬ is_path_protected mw req.path then (.forwarded, st)
  else
    let r := check_rate_limit mw.rl st req.client_id now
    if ¬ r.1 then (.tooManyRequests, r.2)
    else if ¬ req.auth_ctx.is_authenticated then (.unauthorized, r.2)
    else if ¬ req.auth_ctx.is_authorized then (.forbidden, r.2)
    else (.forwardedAuthenticated, r.2)

/-- Helper invariant for revocation permanence: the raw key `s` (via
its hash) can only resolve to key id `k`, and the record stored under
`k`, if any, is inactive. -/
def revokedInv (hash : String → String) (s k : String)
    (st : KeyState) : Prop :=
  ∀ kid, alistGet st.key_hashes (hash s) = some kid →
    kid = k ∧ ∀ d, alistGet st.api_keys k = some d → d.is_active = false

/-- Helper invariant for the rate limiter: whatever bucket the client
has, its token count is within bounds and its timestamps do not lie in
the future of `tmax`. -/
def BucketInv (cfg : RLConfig) (tmax : ℚ) (st : RateMap)
    (cid : String) : Prop :=
  ∀ cd, alistGet st cid = some cd →
    0 ≤ cd.burst_tokens ∧ cd.burst_tokens ≤ (cfg.burst_size : ℤ)
    ∧ cd.last_refill ≤ tmax ∧ ∀ t ∈ cd.requests, t ≤ tmax

/-! ## Theorems -/

/-- Claim C3: if `AuthFactory.create_handler` raises during
`SecurityMiddleware.__init__`, the middleware sets `enabled` to false
and from then on `dispatch` forwards every request — protected paths
included — to the downstream handler with no rate limiting and no
authentication (fail-open). -/
theorem factory_failure_fails_open (mw : MwConfig) (st : RateMap)
    (req : MwRequest) (now : ℚ) (h : mw.factory_raises = true) :
    mw_enabled mw = false ∧ dispatch mw st req now = (.forwarded, st) := by
  constructor
  · simp [mw_enabled, h]
  · simp [dispatch, mw_enabled, h]

/-- Witness for C3 at a concrete protected request. -/
theorem factory_failure_fails_open_witness :
    dispatch
      ⟨true, true, [], ["/api/v1"], ⟨true, 60, 10⟩⟩ []
      ⟨"/api/v1/items", "10.0.0.1",
        ⟨"none", false, false, none, none, .l [], .l []⟩⟩ 0
      = (.forwarded, []) :=
  (factory_failure_fails_open _ _ _ _ rfl).2

/-- Claim C4: a request path that prefix-matches any configured excluded
path is forwarded downstream with no rate-limit check and no
authentication, even when it also prefix-matches a protected path. -/
theorem excluded_path_always_forwards (mw : MwConfig) (st : RateMap)
    (req : MwRequest) (now : ℚ) (e : String)
    (he : e ∈ mw.excluded_paths)
    (hp : str_startswith req.path e = true) :
    dispatch mw st req now = (.forwarded, st) := by
  have hex : is_path_excluded mw req.path = true := by
    simp only [is_path_excluded, List.any_eq_true]
    exact ⟨e, he, hp⟩
  by_cases hen : mw_enabled mw = true
  · simp [dispatch, hen, hex]
  · simp [dispatch, hen]

/-- Witness for C4: an excluded prefix that also prefix-matches a
protected prefix. -/
theorem excluded_path_always_forwards_witness :
    dispatch
      ⟨true, false, ["/api/v1/health"], ["/api/v1"], ⟨true, 60, 10⟩⟩ []
      ⟨"/api/v1/health/live", "10.0.0.1",
        ⟨"none", false, false, none, none, .l [], .l []⟩⟩ 0
      = (.forwarded, []) :=
  excluded_path_always_forwards _ _ _ _ "/api/v1/health"
    (List.mem_singleton.mpr rfl) (by decide)

/-- Claim C5: with an empty protected-paths list, every non-excluded
path is treated as protected — the request is never forwarded without
authentication, the rate limiter runs (its updated bucket map is the
dispatch result's map, and its denial yields 429), and forwarding
requires a successfully authenticated and authorized context. -/
theorem empty_protected_list_denies_by_default (mw : MwConfig)
    (st : RateMap) (req : MwRequest) (now : ℚ)
    (hen : mw_enabled mw = true)
    (hemp : mw.protected_paths = [])
    (hexc : is_path_excluded mw req.path = false) :
    (dispatch mw st req now).1 ≠ .forwarded
    ∧ (dispatch mw st req now).2
        = (check_rate_limit mw.rl st req.client_id now).2
    ∧ ((check_rate_limit mw.rl st req.client_id now).1 = false →
        (dispatch mw st req now).1 = .tooManyRequests)
    ∧ ((dispatch mw st req now).1 = .forwardedAuthenticated →
        (check_rate_limit mw.rl st req.client_id now).1 = true
        ∧ req.auth_ctx.is_authenticated = true
        ∧ req.auth_ctx.is_authorized = true) := by
  have hprot : is_path_protected mw req.path = true := by
    simp [is_path_protected, hemp, hexc]
  simp only [dispatch, hen, hexc, hprot]
  rcases hr : check_rate_limit mw.rl st req.client_id now with ⟨ok, st2⟩
  cases ok <;> cases ha : req.auth_ctx.is_authenticated <;>
    cases hz : req.auth_ctx.is_authorized <;> simp [ha, hz]

/-- Witness for C5: an unauthenticated request to a non-excluded path
under an empty protected list is rejected with 401. -/
theorem empty_protected_list_denies_by_default_witness :
    (dispatch ⟨true, false, ["/docs"], [], ⟨true, 60, 10⟩⟩ []
      ⟨"/anything", "10.0.0.1",
        ⟨"none", false, false, none, none, .l [], .l []⟩⟩ 0).1
      ≠ Outcome.forwarded :=
  (empty_protected_list_denies_by_default
    ⟨true, false, ["/docs"], [], ⟨true, 60, 10⟩⟩ []
    ⟨"/anything", "10.0.0.1",
      ⟨"none", false, false, none, none, .l [], .l []⟩⟩ 0
    rfl rfl (by decide)).1

/-- Claim C6: when both credential kinds fail, the hybrid handler with
`prefer_jwt=true` raises exactly the JWT strategy's error, and with
`prefer_jwt=false` exactly the API-key strategy's error. -/
theorem hybrid_surfaces_first_tried_error (cfg : JWTConfig)
    (hash : String → String) (st : KeyState) (req : AuthRequest)
    (now : ℤ) (e1 e2 : AuthError)
    (hj : jwt_authenticate cfg req now = .error e1)
    (hk : (api_key_authenticate hash st req now).1 = .error e2) :
    (hybrid_authenticate true cfg hash st req now).1 = .error e1
    ∧ (hybrid_authenticate false cfg hash st req now).1 = .error e2 := by
  rcases h : api_key_authenticate hash st req now with ⟨res, st2⟩
  rw [h] at hk
  simp only at hk
  subst hk
  simp [hybrid_authenticate, hj, h]

/-- Witness for C6: both credentials absent. -/
theorem hybrid_surfaces_first_tried_error_witness :
    (hybrid_authenticate true ⟨"s", "HS256", 30, "iss"⟩ id KeyState.empty
      ⟨none, none, none⟩ 0).1 = .error .missingAuthHeader
    ∧ (hybrid_authenticate false ⟨"s", "HS256", 30, "iss"⟩ id
      KeyState.empty ⟨none, none, none⟩ 0).1 = .error .missingApiKey :=
  hybrid_surfaces_first_tried_error _ _ _ _ _ _ _ rfl rfl

/-- Helper: with a valid signature, `pyjwt_decode` is governed by the
structural-claim check, then the expiry check, then the audience
check. -/
theorem pyjwt_decode_cases (tok : SignedToken) (key alg : String)
    (now : ℤ) (h1 : tok.key = key) (h2 : tok.alg = alg) :
    pyjwt_decode tok key alg now =
      (if claims_structurally_bad tok.payload now then .error .malformed
       else if token_expired tok.payload now then .error .expired
       else if (alistGet tok.payload "aud").isSome then .error .malformed
       else .ok tok.payload) := by
  have hs : tok.key = key ∧ tok.alg = alg := ⟨h1, h2⟩
  rcases hiat : intClaim tok.payload "iat" with _ | _ | n1 <;>
    rcases hnbf : intClaim tok.payload "nbf" with _ | _ | n2 <;>
      rcases hexp : intClaim tok.payload "exp" with _ | _ | n3 <;>
        simp [pyjwt_decode, hs, hiat, hnbf, hexp,
          claims_structurally_bad, token_expired]

/-- Claim C2 (amended): `verify_token` checks, in this order: signature
validity (with the codec's structural validation of the registered
`iat`/`nbf`/`exp` claims, all surfaced as the invalid-token error),
then expiry, then the audience guard, then issuer equality, then
token-type membership; the first failing check short-circuits with its
own error kind, and all checks passing yields decoded token data.  (The
spec places the expiry check last; the code performs it inside
`jwt.decode`, before the issuer and type checks.) -/
theorem verify_token_check_order (cfg : JWTConfig) (tok : SignedToken)
    (now : ℤ) :
    (sig_ok cfg tok = false →
      verify_token cfg tok now = .error .malformed)
    ∧ (sig_ok cfg tok = true →
        claims_structurally_bad tok.payload now = true →
        verify_token cfg tok now = .error .malformed)
    ∧ (sig_ok cfg tok = true →
        claims_structurally_bad tok.payload now = false →
        token_expired tok.payload now = true →
        verify_token cfg tok now = .error .expired)
    ∧ (sig_ok cfg tok = true →
        claims_structurally_bad tok.payload now = false →
        token_expired tok.payload now = false →
        (alistGet tok.payload "aud").isSome = true →
        verify_token cfg tok now = .error .malformed)
    ∧ (sig_ok cfg tok = true →
        claims_structurally_bad tok.payload now = false →
        token_expired tok.payload now = false →
        alistGet tok.payload "aud" = none →
        iss_matches cfg tok.payload = false →
        verify_token cfg tok now = .error .issuerMismatch)
    ∧ (sig_ok cfg tok = true →
        claims_structurally_bad tok.payload now = false →
        token_expired tok.payload now = false →
        alistGet tok.payload "aud" = none →
        iss_matches cfg tok.payload = true →
        type_supported tok.payload = false →
        verify_token cfg tok now = .error .unsupportedType)
    ∧ (sig_ok cfg tok = true →
        claims_structurally_bad tok.payload now = false →
        token_expired tok.payload now = false →
        alistGet tok.payload "aud" = none →
        iss_matches cfg tok.payload = true →
        type_supported tok.payload = true →
        ∃ td, verify_token cfg tok now = .ok td) := by
  by_cases hsig : sig_ok cfg tok = true
  · have hkey : tok.key = cfg.secret_key ∧ tok.alg = cfg.algorithm := by
      simpa [sig_ok] using hsig
    have hdec := pyjwt_decode_cases tok cfg.secret_key cfg.algorithm now
      hkey.1 hkey.2
    refine ⟨fun h => by rw [h] at hsig; exact absurd hsig (by simp),
      ?_, ?_, ?_, ?_, ?_, ?_⟩
    · intro _ hbad
      simp [verify_token, hdec, hbad]
    · intro _ hbad hexp
      simp [verify_token, hdec, hbad, hexp]
    · intro _ hbad hexp haud
      simp [verify_token, hdec, hbad, hexp, haud]
    · intro _ hbad hexp haud hiss
      have hiss2 : alistGet tok.payload "iss" ≠ some (.s cfg.issuer) := by
        simpa [iss_matches] using hiss
      simp [verify_token, hdec, hbad, hexp, haud, hiss2]
    · intro _ hbad hexp haud hiss htype
      have hiss2 : alistGet tok.payload "iss" = some (.s cfg.issuer) := by
        simpa [iss_matches] using hiss
      have htype2 : (alistGet tok.payload "type").getD (.s "access")
            ≠ JVal.s "access"
          ∧ (alistGet tok.payload "type").getD (.s "access")
            ≠ JVal.s "refresh" := by
        constructor <;> intro hx <;> simp [type_supported, hx] at htype
      simp [verify_token, hdec, hbad, hexp, haud, hiss2, htype2]
    · intro _ hbad hexp haud hiss htype
      have hiss2 : alistGet tok.payload "iss" = some (.s cfg.issuer) := by
        simpa [iss_matches] using hiss
      have htype2 : (alistGet tok.payload "type").getD (.s "access")
            = JVal.s "access"
          ∨ (alistGet tok.payload "type").getD (.s "access")
            = JVal.s "refresh" := by
        simpa [type_supported] using htype
      rcases hv : verify_token cfg tok now with e | td
      · exfalso
        rcases htype2 with h | h <;>
          simp [verify_token, hdec, hbad, hexp, haud, hiss2, h] at hv
      · exact ⟨td, rfl⟩
  · have hsig2 : sig_ok cfg tok = false := by
      cases h : sig_ok cfg tok
      · rfl
      · exact absurd h hsig
    have hkey : ¬ (tok.key = cfg.secret_key ∧ tok.alg = cfg.algorithm) := by
      intro ⟨h1, h2⟩
      simp [sig_ok, h1, h2] at hsig2
    refine ⟨fun _ => ?_, ?_, ?_, ?_, ?_, ?_, ?_⟩
    · simp [verify_token, pyjwt_decode, hkey]
    all_goals
      intro h _
      rw [h] at hsig2
      exact absurd hsig2 (by simp)

/-- Counterexample to claim C2 as stated: a correctly signed token that
is both expired and carries a wrong issuer.  The code reports the
expiry error; the spec's claimed order (signature → issuer → type →
expiry) would report the issuer error. -/
theorem verify_token_order_counterexample :
    verify_token ⟨"secret-key", "HS256", 30, "good-issuer"⟩
      ⟨[("iss", .s "other-issuer"), ("exp", .i 100),
        ("type", .s "access")], "secret-key", "HS256"⟩ 200
      = .error .expired
    ∧ verify_token_spec_order ⟨"secret-key", "HS256", 30, "good-issuer"⟩
      ⟨[("iss", .s "other-issuer"), ("exp", .i 100),
        ("type", .s "access")], "secret-key", "HS256"⟩ 200
      = .error .issuerMismatch :=
  ⟨rfl, rfl⟩

/-- Witness for C2 (amended) at the expired wrong-issuer token. -/
theorem verify_token_check_order_witness :
    verify_token ⟨"secret-key", "HS256", 30, "good-issuer"⟩
      ⟨[("iss", .s "other-issuer"), ("exp", .i 100),
        ("type", .s "access")], "secret-key", "HS256"⟩ 200
      = .error .expired :=
  (verify_token_check_order ⟨"secret-key", "HS256", 30, "good-issuer"⟩
    ⟨[("iss", .s "other-issuer"), ("exp", .i 100),
      ("type", .s "access")], "secret-key", "HS256"⟩ 200).2.2.1
    (by decide) (by decide) (by decide)

/-- Helper: assignment under a different key leaves a lookup
unchanged. -/
theorem alistGet_alistSet_ne {α : Type} (l : List (String × α))
    (k k2 : String) (v : α) (h : k2 ≠ k) :
    alistGet (alistSet l k2 v) k = alistGet l k := by
  induction l with
  | nil => simp [alistSet, alistGet, h]
  | cons a rest ih =>
      rcases a with ⟨a1, a2⟩
      by_cases ha : a1 = k2
      · subst ha
        simp [alistSet, alistGet, h]
      · simp [alistSet, alistGet, ha, ih]

/-- Helper: a dict update whose keys all differ from `k` leaves the
lookup of `k` unchanged. -/
theorem alistGet_dictUpdate_ne (extra : Payload) (p : Payload)
    (k : String) (h : ∀ kv ∈ extra, kv.1 ≠ k) :
    alistGet (dictUpdate p extra) k = alistGet p k := by
  induction extra generalizing p with
  | nil => rfl
  | cons kv rest ih =>
      have hstep : dictUpdate p (kv :: rest)
          = dictUpdate (alistSet p kv.1 kv.2) rest := rfl
      rw [hstep, ih (alistSet p kv.1 kv.2) (fun e he => h e (by simp [he])),
        alistGet_alistSet_ne _ _ _ _ (h kv (by simp))]

/-- Claim C10 (amended): for every subject, username, role list,
permission list and extra-claims map whose keys avoid the token's
reserved claims (`sub`, `username`, `user_id`, `roles`, `permissions`,
`exp`, `iat`, `iss`, `type`) and the codec-validated claims (`nbf`,
`aud`), verifying a token produced by `create_access_token` with the
same configuration at a time before the token's expiry succeeds, and
the decoded claims carry exactly the input subject, username, roles and
permissions, with issued-at and expiry equal to the issuance-time
values. -/
theorem access_token_roundtrip (cfg : JWTConfig)
    (user_id username : String) (roles permissions : List String)
    (extra : Payload) (now verify_at : ℤ)
    (hres : ∀ kv ∈ extra, kv.1 ∉ reserved_claims)
    (hfresh : verify_at < now + cfg.access_token_expire_minutes * 60) :
    ∃ td, verify_token cfg
        (create_access_token cfg user_id username roles permissions
          extra now) verify_at = .ok td
      ∧ td.sub = some (.s user_id)
      ∧ td.username = some (.s username)
      ∧ td.roles = .l roles
      ∧ td.permissions = .l permissions
      ∧ td.iat = now
      ∧ td.exp = now + cfg.access_token_expire_minutes * 60 := by
  set tok := create_access_token cfg user_id username roles permissions
    extra now with htok
  have hne : ∀ k, k ∈ reserved_claims → ∀ kv ∈ extra, kv.1 ≠ k := by
    intro k hk kv hkv heq
    exact hres kv hkv (heq ▸ hk)
  have hbase : ∀ k, k ∈ reserved_claims →
      alistGet tok.payload k = alistGet
        [ ("sub", JVal.s user_id)
        , ("username", .s username)
        , ("user_id", .s user_id)
        , ("roles", .l roles)
        , ("permissions", .l permissions)
        , ("exp", .i (now + cfg.access_token_expire_minutes * 60))
        , ("iat", .i now)
        , ("iss", .s cfg.issuer)
        , ("type", .s "access") ] k := by
    intro k hk
    exact alistGet_dictUpdate_ne extra _ k (hne k hk)
  have hsub : alistGet tok.payload "sub" = some (.s user_id) := by
    rw [hbase "sub" (by decide)]; simp [alistGet]
  have husername : alistGet tok.payload "username" = some (.s username) := by
    rw [hbase "username" (by decide)]; simp [alistGet]
  have hroles : alistGet tok.payload "roles" = some (.l roles) := by
    rw [hbase "roles" (by decide)]; simp [alistGet]
  have hperms : alistGet tok.payload "permissions"
      = some (.l permissions) := by
    rw [hbase "permissions" (by decide)]; simp [alistGet]
  have hexp : alistGet tok.payload "exp"
      = some (.i (now + cfg.access_token_expire_minutes * 60)) := by
    rw [hbase "exp" (by decide)]; simp [alistGet]
  have hiat : alistGet tok.payload "iat" = some (.i now) := by
    rw [hbase "iat" (by decide)]; simp [alistGet]
  have hiss : alistGet tok.payload "iss" = some (.s cfg.issuer) := by
    rw [hbase "iss" (by decide)]; simp [alistGet]
  have htype : alistGet tok.payload "type" = some (.s "access") := by
    rw [hbase "type" (by decide)]; simp [alistGet]
  have hnbf : alistGet tok.payload "nbf" = none := by
    rw [hbase "nbf" (by decide)]; simp [alistGet]
  have haud : alistGet tok.payload "aud" = none := by
    rw [hbase "aud" (by decide)]; simp [alistGet]
  have hbad : claims_structurally_bad tok.payload verify_at = false := by
    simp [claims_structurally_bad, intClaim, hiat, hnbf, hexp]
  have hexpired : token_expired tok.payload verify_at = false := by
    simp [token_expired, intClaim, hexp]
    omega
  have hdec := pyjwt_decode_cases tok cfg.secret_key cfg.algorithm
    verify_at rfl rfl
  have huid : alistGet tok.payload "user_id" = some (.s user_id) := by
    rw [hbase "user_id" (by decide)]; simp [alistGet]
  refine ⟨⟨some (.s user_id), some (.s username),
    alistGet tok.payload "email", .l roles, .l permissions,
    now + cfg.access_token_expire_minutes * 60, now,
    some (.s cfg.issuer), some (.s user_id)⟩,
    ?_, rfl, rfl, rfl, rfl, rfl, rfl⟩
  simp [verify_token, hdec, hbad, hexpired, haud, hiss, htype,
    intClaimD, intClaim, hexp, hiat, hsub, husername, hroles, hperms,
    huid]

/-- Counterexample to claim C10 as stated: with the extra-claims map
`{"type": "bogus"}` the round trip fails — the extra claim overrides
the token-type claim, so verification rejects the freshly issued
token. -/
theorem access_token_roundtrip_counterexample :
    verify_token ⟨"secret-key", "HS256", 30, "fastapi-rest-template"⟩
      (create_access_token
        ⟨"secret-key", "HS256", 30, "fastapi-rest-template"⟩
        "u1" "alice" [] [] [("type", .s "bogus")] 1000) 1001
      = .error .unsupportedType := rfl

/-- Witness for C10 (amended) at concrete inputs with a non-reserved
extra claim. -/
theorem access_token_roundtrip_witness :
    ∃ td, verify_token ⟨"secret-key", "HS256", 30, "fastapi-rest-template"⟩
        (create_access_token
          ⟨"secret-key", "HS256", 30, "fastapi-rest-template"⟩
          "u1" "alice" ["admin"] ["read"]
          [("email", .s "alice@example.com")] 1000) 1001 = .ok td
      ∧ td.sub = some (.s "u1")
      ∧ td.username = some (.s "alice")
      ∧ td.roles = .l ["admin"]
      ∧ td.permissions = .l ["read"]
      ∧ td.iat = 1000
      ∧ td.exp = 1000 + 30 * 60 :=
  access_token_roundtrip
    ⟨"secret-key", "HS256", 30, "fastapi-rest-template"⟩
    "u1" "alice" ["admin"] ["read"]
    [("email", .s "alice@example.com")] 1000 1001
    (by decide) (by decide)

/-- Helper: assignment stores the value under its key. -/
theorem alistGet_alistSet_eq {α : Type} (l : List (String × α))
    (k : String) (v : α) : alistGet (alistSet l k v) k = some v := by
  induction l with
  | nil => simp [alistSet, alistGet]
  | cons a rest ih =>
      rcases a with ⟨a1, a2⟩
      by_cases ha : a1 = k
      · simp [alistSet, alistGet, ha]
      · simp [alistSet, alistGet, ha, ih]

/-- Helper: a successful lookup is a list member. -/
theorem alistGet_mem {α : Type} (l : List (String × α)) (k : String)
    (v : α) (h : alistGet l k = some v) : (k, v) ∈ l := by
  induction l with
  | nil => simp [alistGet] at h
  | cons a rest ih =>
      rcases a with ⟨a1, a2⟩
      by_cases ha : a1 = k
      · subst ha
        simp [alistGet] at h
        simp [h]
      · simp [alistGet, ha] at h
        simp [ih h]

/-- Helper: members of an updated list come from the new binding or the
old list. -/
theorem mem_alistSet {α : Type} (l : List (String × α)) (k : String)
    (v : α) (a : String) (b : α) (h : (a, b) ∈ alistSet l k v) :
    (a = k ∧ b = v) ∨ (a, b) ∈ l := by
  induction l with
  | nil => simpa [alistSet] using h
  | cons c rest ih =>
      rcases c with ⟨c1, c2⟩
      by_cases hc : c1 = k
      · subst hc
        simp [alistSet] at h
        rcases h with ⟨h1, h2⟩ | h
        · exact .inl ⟨h1, h2⟩
        · exact .inr (by simp [h])
      · simp [alistSet, hc] at h
        rcases h with ⟨h1, h2⟩ | h
        · subst h1; subst h2; exact .inr (by simp)
        · rcases ih h with h2 | h2
          · exact .inl h2
          · exact .inr (by simp [h2])

/-- Helper: `revoke_api_key` never touches the hash map. -/
theorem revoke_key_hashes (st : KeyState) (k : String) :
    (revoke_api_key st k).2.key_hashes = st.key_hashes := by
  rcases h : alistGet st.api_keys k with _ | r <;>
    simp [revoke_api_key, h]

/-- Helper: `update_api_key` never touches the hash map. -/
theorem update_key_hashes (st : KeyState) (k : String)
    (name : Option String) (permissions : Option (List String))
    (rate_limit expires_at : Option ℤ) (is_active : Option Bool) :
    (update_api_key st k name permissions rate_limit expires_at
      is_active).2.key_hashes = st.key_hashes := by
  rcases h : alistGet st.api_keys k with _ | r <;>
    simp [update_api_key, h]

/-- Helper: `validate_api_key` never touches the hash map. -/
theorem validate_key_hashes (hash : String → String) (st : KeyState)
    (s : String) (now : ℤ) :
    (validate_api_key hash st s now).2.key_hashes = st.key_hashes := by
  unfold validate_api_key
  by_cases h0 : s = ""
  · simp [h0]
  · simp only [h0, if_false]
    rcases h1 : alistGet st.key_hashes (hash s) with _ | kid
    · simp
    · simp only
      rcases h2 : alistGet st.api_keys kid with _ | r
      · simp
      · simp only
        by_cases h3 : r.is_active
        · simp only [h3, not_true, if_false]
          by_cases h4 :
              (r.expires_at.map (fun e => decide (e < now))).getD false
          · simp [h4]
          · simp [h4]
        · simp [h3]

/-- Helper: a successful validation presupposes a hash-map hit. -/
theorem validate_isSome_lookup (hash : String → String) (st : KeyState)
    (s : String) (now : ℤ)
    (h : ((validate_api_key hash st s now).1).isSome = true) :
    ∃ kid, alistGet st.key_hashes (hash s) = some kid := by
  unfold validate_api_key at h
  by_cases h0 : s = ""
  · simp [h0] at h
  · simp only [h0, if_false] at h
    rcases h1 : alistGet st.key_hashes (hash s) with _ | kid
    · rw [h1] at h
      simp at h
    · exact ⟨kid, rfl⟩

/-- Helper: every binding of the hash map after running a history comes
from the starting state or from the raw key of a `create` operation in
the history. -/
theorem run_key_hashes_covered (hash : String → String) :
    ∀ (ops : List KeyOp) (st : KeyState) (hv kid : String),
      (hv, kid) ∈ (run_key_ops hash st ops).key_hashes →
      (hv, kid) ∈ st.key_hashes
      ∨ ∃ op ∈ ops, ∃ raw, op.createdRaw = some raw ∧ hv = hash raw := by
  intro ops
  induction ops with
  | nil =>
      intro st hv kid h
      exact .inl h
  | cons op rest ih =>
      intro st hv kid h
      have h2 := ih (key_step hash st op) hv kid h
      rcases h2 with h2 | ⟨op2, hop2, raw, hraw, hv2⟩
      · cases op with
        | create raw key_id name user_id permissions rate_limit
            expires_at now =>
            have h3 : (key_step hash st
                (.create raw key_id name user_id permissions rate_limit
                  expires_at now)).key_hashes
                = alistSet st.key_hashes (hash raw) key_id := rfl
            rw [h3] at h2
            rcases mem_alistSet _ _ _ _ _ h2 with ⟨he, _⟩ | h4
            · exact .inr ⟨KeyOp.create raw key_id name user_id
                permissions rate_limit expires_at now,
                by simp, raw, rfl, he⟩
            · exact .inl h4
        | revoke key_id =>
            rw [show (key_step hash st (.revoke key_id)).key_hashes
              = st.key_hashes from revoke_key_hashes st key_id] at h2
            exact .inl h2
        | update key_id name permissions rate_limit expires_at
            is_active =>
            rw [show (key_step hash st (.update key_id name permissions
                rate_limit expires_at is_active)).key_hashes
              = st.key_hashes from update_key_hashes st key_id name
                permissions rate_limit expires_at is_active] at h2
            exact .inl h2
        | validate raw now =>
            rw [show (key_step hash st (.validate raw now)).key_hashes
              = st.key_hashes from validate_key_hashes hash st raw
                now] at h2
            exact .inl h2
      · exact .inr ⟨op2, by simp [hop2], raw, hraw, hv2⟩

/-- Helper: under the invariant, validation of `s` fails. -/
theorem validate_of_revokedInv (hash : String → String) (s k : String)
    (st : KeyState) (now : ℤ) (hinv : revokedInv hash s k st) :
    (validate_api_key hash st s now).1 = none := by
  by_cases h0 : s = ""
  · simp [validate_api_key, h0]
  · rcases h1 : alistGet st.key_hashes (hash s) with _ | kid
    · simp [validate_api_key, h0, h1]
    · obtain ⟨hkid, hrec⟩ := hinv kid h1
      subst hkid
      rcases h2 : alistGet st.api_keys kid with _ | r
      · simp [validate_api_key, h0, h1, h2]
      · have hact : r.is_active = false := hrec r h2
        simp [validate_api_key, h0, h1, h2, hact]

/-- Helper: `update_api_key` of another key id does not change a
lookup. -/
theorem update_lookup_other (st : KeyState) (key_id : String)
    (name : Option String) (permissions : Option (List String))
    (rate_limit expires_at : Option ℤ) (is_active : Option Bool)
    (k : String) (hk : key_id ≠ k) :
    alistGet (update_api_key st key_id name permissions rate_limit
      expires_at is_active).2.api_keys k = alistGet st.api_keys k := by
  rcases h3 : alistGet st.api_keys key_id with _ | r
  · simp [update_api_key, h3]
  · simp [update_api_key, h3, alistGet_alistSet_ne _ _ _ _ hk]

/-- Helper: `update_api_key` of an existing key stores a record whose
active flag is the requested one (or the old one when unset). -/
theorem update_lookup_self (st : KeyState) (key_id : String)
    (name : Option String) (permissions : Option (List String))
    (rate_limit expires_at : Option ℤ) (is_active : Option Bool)
    (r : APIKeyRecord) (h3 : alistGet st.api_keys key_id = some r) :
    ∃ r2, alistGet (update_api_key st key_id name permissions
        rate_limit expires_at is_active).2.api_keys key_id = some r2
      ∧ r2.is_active = is_active.getD r.is_active := by
  rcases rate_limit with _ | x <;> rcases expires_at with _ | e <;>
    simp [update_api_key, h3, alistGet_alistSet_eq]

/-- Helper: `validate_api_key` preserves every record's active flag. -/
theorem validate_preserves_active (hash : String → String)
    (st : KeyState) (raw : String) (now : ℤ) (k : String)
    (d : APIKeyRecord)
    (hd : alistGet (validate_api_key hash st raw now).2.api_keys k
      = some d) :
    ∃ d0, alistGet st.api_keys k = some d0
      ∧ d.is_active = d0.is_active := by
  by_cases h0 : raw = ""
  · simp [validate_api_key, h0] at hd
    exact ⟨d, hd, rfl⟩
  · rcases hh : alistGet st.key_hashes (hash raw) with _ | kid2
    · simp [validate_api_key, h0, hh] at hd
      exact ⟨d, hd, rfl⟩
    · rcases ha : alistGet st.api_keys kid2 with _ | r0
      · simp [validate_api_key, h0, hh, ha] at hd
        exact ⟨d, hd, rfl⟩
      · by_cases hact : r0.is_active = true
        · by_cases hexp :
              (r0.expires_at.map (fun e => decide (e < now))).getD false
                = true
          · simp [validate_api_key, h0, hh, ha, hact, hexp] at hd
            exact ⟨d, hd, rfl⟩
          · simp [validate_api_key, h0, hh, ha, hact, hexp] at hd
            by_cases hk : kid2 = k
            · subst hk
              rw [alistGet_alistSet_eq] at hd
              cases hd
              exact ⟨r0, ha, by simp [hact]⟩
            · rw [alistGet_alistSet_ne _ _ _ _ hk] at hd
              exact ⟨d, hd, rfl⟩
        · simp [validate_api_key, h0, hh, ha, hact] at hd
          exact ⟨d, hd, rfl⟩

/-- Helper: one non-reactivating operation preserves the invariant. -/
theorem revokedInv_step (hash : String → String)
    (hinj : Function.Injective hash) (s k : String) (st : KeyState)
    (op : KeyOp) (hinv : revokedInv hash s k st)
    (hre : ¬ reactivates k s op) :
    revokedInv hash s k (key_step hash st op) := by
  cases op with
  | create raw key_id name user_id permissions rate_limit
      expires_at now =>
      have hne : raw ≠ s ∧ key_id ≠ k := by
        simpa [reactivates, not_or] using hre
      intro kid hkid
      have hraw : hash raw ≠ hash s := fun he => hne.1 (hinj he)
      rw [show (key_step hash st (.create raw key_id name user_id
          permissions rate_limit expires_at now)).key_hashes
        = alistSet st.key_hashes (hash raw) key_id from rfl,
        alistGet_alistSet_ne _ _ _ _ hraw] at hkid
      obtain ⟨h1, h2⟩ := hinv kid hkid
      refine ⟨h1, fun d hd => ?_⟩
      rw [show (key_step hash st (.create raw key_id name user_id
          permissions rate_limit expires_at now)).api_keys
        = alistSet st.api_keys key_id
            { key_id := key_id, name := name, user_id := user_id
            , permissions := permissions, rate_limit := rate_limit
            , expires_at := expires_at, is_active := true
            , created_at := now, last_used := none } from rfl,
        alistGet_alistSet_ne _ _ _ _ hne.2] at hd
      exact h2 d hd
  | revoke key_id =>
      intro kid hkid
      rw [show (key_step hash st (.revoke key_id)).key_hashes
        = st.key_hashes from revoke_key_hashes st key_id] at hkid
      obtain ⟨h1, h2⟩ := hinv kid hkid
      refine ⟨h1, fun d hd => ?_⟩
      rcases h3 : alistGet st.api_keys key_id with _ | r
      · rw [show (key_step hash st (.revoke key_id)).api_keys
          = st.api_keys by simp [key_step, revoke_api_key, h3]] at hd
        exact h2 d hd
      · rw [show (key_step hash st (.revoke key_id)).api_keys
          = alistSet st.api_keys key_id { r with is_active := false }
          by simp [key_step, revoke_api_key, h3]] at hd
        by_cases hk : key_id = k
        · subst hk
          rw [alistGet_alistSet_eq] at hd
          cases hd
          rfl
        · rw [alistGet_alistSet_ne _ _ _ _ hk] at hd
          exact h2 d hd
  | update key_id name permissions rate_limit expires_at is_active =>
      intro kid hkid
      rw [show (key_step hash st (.update key_id name permissions
          rate_limit expires_at is_active)).key_hashes
        = st.key_hashes from update_key_hashes st key_id name
          permissions rate_limit expires_at is_active] at hkid
      obtain ⟨h1, h2⟩ := hinv kid hkid
      refine ⟨h1, fun d hd => ?_⟩
      have hstep : key_step hash st (.update key_id name permissions
          rate_limit expires_at is_active)
        = (update_api_key st key_id name permissions rate_limit
            expires_at is_active).2 := rfl
      rw [hstep] at hd
      by_cases hk : key_id = k
      · subst hk
        rcases h3 : alistGet st.api_keys key_id with _ | r
        · simp [update_api_key, h3] at hd
        · obtain ⟨r2, hr2, hact2⟩ := update_lookup_self st key_id name
            permissions rate_limit expires_at is_active r h3
          rw [hr2] at hd
          cases hd
          rw [hact2]
          have hract : r.is_active = false := h2 r h3
          have hia : is_active ≠ some true := fun he => hre (by
            simp [reactivates, he])
          rcases is_active with _ | b
          · simpa using hract
          · cases b
            · simp
            · exact absurd rfl hia
      · rw [update_lookup_other st key_id name permissions rate_limit
          expires_at is_active k hk] at hd
        exact h2 d hd
  | validate raw now =>
      intro kid hkid
      rw [show (key_step hash st (.validate raw now)).key_hashes
        = st.key_hashes from validate_key_hashes hash st raw now] at hkid
      obtain ⟨h1, h2⟩ := hinv kid hkid
      refine ⟨h1, fun d hd => ?_⟩
      have hstep : key_step hash st (.validate raw now)
          = (validate_api_key hash st raw now).2 := rfl
      rw [hstep] at hd
      obtain ⟨d0, hd0, hact0⟩ := validate_preserves_active hash st raw
        now k d hd
      rw [hact0, h2 d0 hd0]

/-- Helper: a whole non-reactivating history preserves the invariant. -/
theorem revokedInv_run (hash : String → String)
    (hinj : Function.Injective hash) (s k : String) :
    ∀ (ops : List KeyOp) (st : KeyState), revokedInv hash s k st →
      (∀ op ∈ ops, ¬ reactivates k s op) →
      revokedInv hash s k (run_key_ops hash st ops) := by
  intro ops
  induction ops with
  | nil => intro st hinv _; exact hinv
  | cons op rest ih =>
      intro st hinv hre
      exact ih (key_step hash st op)
        (revokedInv_step hash hinj s k st op hinv (hre op (by simp)))
        (fun o ho => hre o (by simp [ho]))

/-- Claim C1 (amended): for every registry history (with an injective
key digest and the freshly drawn random key material of each `create`),
(1) `validate_api_key(s)` returns a record only when `s` is exactly the
raw key of some earlier `create_api_key` call; and (2) once
`revoke_api_key(key_id)` has been called for a key, that key's raw key
never validates at any later point, provided no later operation
re-activates the key — no `update_api_key` for it with
`is_active=True`, and no `create_api_key` reusing its key id or raw
key. -/
theorem api_key_secrecy_and_revocation (hash : String → String)
    (hinj : Function.Injective hash) :
    (∀ (ops : List KeyOp) (s : String) (now : ℤ),
      ((validate_api_key hash (run_key_ops hash KeyState.empty ops)
        s now).1).isSome = true →
      ∃ op ∈ ops, op.createdRaw = some s)
    ∧ (∀ (st : KeyState) (s k : String) (ops : List KeyOp) (now : ℤ),
      alistGet st.key_hashes (hash s) = some k →
      (∀ op ∈ ops, ¬ reactivates k s op) →
      (validate_api_key hash
        (run_key_ops hash (revoke_api_key st k).2 ops) s now).1
        = none) := by
  constructor
  · intro ops s now h
    obtain ⟨kid, hkid⟩ := validate_isSome_lookup hash _ s now h
    have hmem := alistGet_mem _ _ _ hkid
    rcases run_key_hashes_covered hash ops KeyState.empty _ _ hmem with
      h2 | ⟨op, hop, raw, hraw, he⟩
    · simp [KeyState.empty] at h2
    · have hs : s = raw := hinj he
      exact ⟨op, hop, by rw [hraw, hs]⟩
  · intro st s k ops now hbind hre
    have hinv : revokedInv hash s k (revoke_api_key st k).2 := by
      intro kid hkid
      rw [revoke_key_hashes st k] at hkid
      rw [hbind] at hkid
      cases hkid
      refine ⟨rfl, fun d hd => ?_⟩
      rcases h3 : alistGet st.api_keys k with _ | r
      · simp [revoke_api_key, h3] at hd
      · simp [revoke_api_key, h3, alistGet_alistSet_eq] at hd
        rw [← hd]
    exact validate_of_revokedInv hash s k _ now
      (revokedInv_run hash hinj s k ops _ hinv hre)

/-- Counterexample to claim C1 as stated: after `create`, `revoke` and
an `update` with `is_active=True`, the revoked key's raw key validates
again. -/
theorem api_key_revocation_counterexample :
    ((validate_api_key id
      (run_key_ops id KeyState.empty
        [ .create "raw-1" "k-1" "svc" none [] none none 0
        , .revoke "k-1"
        , .update "k-1" none none none none (some true) ])
      "raw-1" 5).1).isSome = true := rfl

/-- Witness for C1 (amended): a revoked key stays invalid with no
re-activating operation in between. -/
theorem api_key_secrecy_and_revocation_witness :
    (validate_api_key id
      (run_key_ops id
        (revoke_api_key
          (run_key_ops id KeyState.empty
            [ .create "raw-1" "k-1" "svc" none [] none none 0 ])
          "k-1").2
        [])
      "raw-1" 5).1 = none :=
  (api_key_secrecy_and_revocation id (fun _ _ h => h)).2
    (run_key_ops id KeyState.empty
      [ .create "raw-1" "k-1" "svc" none [] none none 0 ])
    "raw-1" "k-1" [] 5 rfl (by simp)

/-- Helper: Python `int()` of a nonnegative quantity is nonnegative. -/
theorem pyInt_nonneg (q : ℚ) (h : 0 ≤ q) : 0 ≤ pyInt q := by
  rw [pyInt, if_pos h]
  exact Int.floor_nonneg.mpr h

/-- Helper: one enabled `check_rate_limit` call leaves the client's
bucket with bounded tokens, `last_refill = now`, and only window
entries younger than 60 seconds. -/
theorem check_rate_limit_step (cfg : RLConfig) (st : RateMap)
    (cid : String) (now : ℚ) (hen : cfg.rate_limit_enabled = true)
    (hpre : BucketInv cfg now st cid) :
    ∃ cd2, alistGet (check_rate_limit cfg st cid now).2 cid = some cd2
      ∧ 0 ≤ cd2.burst_tokens
      ∧ cd2.burst_tokens ≤ (cfg.burst_size : ℤ)
      ∧ cd2.last_refill = now
      ∧ ∀ t ∈ cd2.requests, now - t < 60 ∧ t ≤ now := by
  unfold check_rate_limit
  rw [if_neg (by simp [hen])]
  set cd := (alistGet st cid).getD ⟨[], (cfg.burst_size : ℤ), now⟩
    with hcddef
  have hprops : 0 ≤ cd.burst_tokens
      ∧ cd.burst_tokens ≤ (cfg.burst_size : ℤ)
      ∧ cd.last_refill ≤ now ∧ ∀ t ∈ cd.requests, t ≤ now := by
    rcases h : alistGet st cid with _ | cd0
    · refine ⟨?_, ?_, ?_, ?_⟩ <;> simp [hcddef, h]
    · have h2 := hpre cd0 h
      simpa [hcddef, h] using h2
  obtain ⟨hp1, hp2, hp3, hp4⟩ := hprops
  have hadd0 : 0 ≤ pyInt ((now - cd.last_refill)
      * (cfg.requests_per_minute : ℚ) / 60) := by
    refine pyInt_nonneg _ ?_
    have : (0:ℚ) ≤ now - cd.last_refill := by linarith
    positivity
  have htok0 : 0 ≤ min ((cfg.burst_size : ℤ))
      (cd.burst_tokens + pyInt ((now - cd.last_refill)
        * (cfg.requests_per_minute : ℚ) / 60)) :=
    le_min (Int.ofNat_nonneg _) (by linarith)
  have htokB : min ((cfg.burst_size : ℤ))
      (cd.burst_tokens + pyInt ((now - cd.last_refill)
        * (cfg.requests_per_minute : ℚ) / 60))
      ≤ (cfg.burst_size : ℤ) := min_le_left _ _
  have hfreq : ∀ t ∈ cd.requests.filter (fun t => now - t < 60),
      now - t < 60 ∧ t ≤ now := by
    intro t ht
    rw [List.mem_filter] at ht
    exact ⟨by simpa using ht.2, hp4 t ht.1⟩
  dsimp only
  split_ifs with h1 h2
  · exact ⟨_, alistGet_alistSet_eq _ _ _, htok0, htokB, rfl, hfreq⟩
  · exact ⟨_, alistGet_alistSet_eq _ _ _, htok0, htokB, rfl, hfreq⟩
  · refine ⟨_, alistGet_alistSet_eq _ _ _, by dsimp only; omega,
      by dsimp only; omega, rfl, ?_⟩
    intro t ht
    rw [List.mem_append] at ht
    rcases ht with ht | ht
    · exact hfreq t ht
    · simp only [List.mem_singleton] at ht
      subst ht
      norm_num

/-- Helper: the bucket invariant is monotone in the time bound. -/
theorem BucketInv.mono (cfg : RLConfig) (a b : ℚ) (st : RateMap)
    (cid : String) (hab : a ≤ b) (h : BucketInv cfg a st cid) :
    BucketInv cfg b st cid := by
  intro cd hcd
  obtain ⟨h1, h2, h3, h4⟩ := h cd hcd
  exact ⟨h1, h2, le_trans h3 hab, fun t ht => le_trans (h4 t ht) hab⟩

/-- Helper: along a chronological sequence of calls the bucket stays
within bounds and holds only fresh window entries. -/
theorem run_checks_inv (cfg : RLConfig) (cid : String)
    (hen : cfg.rate_limit_enabled = true) :
    ∀ (times : List ℚ) (st : RateMap) (tl : ℚ),
      (times ++ [tl]).Pairwise (· ≤ ·) →
      BucketInv cfg (times.headD tl) st cid →
      ∃ cd, alistGet (run_checks cfg st cid (times ++ [tl])).2 cid
          = some cd
        ∧ 0 ≤ cd.burst_tokens ∧ cd.burst_tokens ≤ (cfg.burst_size : ℤ)
        ∧ cd.last_refill = tl
        ∧ ∀ t ∈ cd.requests, tl - t < 60 ∧ t ≤ tl := by
  intro times
  induction times with
  | nil =>
      intro st tl _ hinv
      obtain ⟨cd2, hcd2, h1, h2, h3, h4⟩ :=
        check_rate_limit_step cfg st cid tl hen (by simpa using hinv)
      refine ⟨cd2, ?_, h1, h2, h3, h4⟩
      simpa [run_checks] using hcd2
  | cons t ts ih =>
      intro st tl hpair hinv
      have hinvt : BucketInv cfg t st cid := by simpa using hinv
      obtain ⟨cd2, hcd2, h1, h2, h3, h4⟩ :=
        check_rate_limit_step cfg st cid t hen hinvt
      have hle : t ≤ ts.headD tl := by
        rcases ts with _ | ⟨t2, ts2⟩
        · have := (List.pairwise_cons.mp hpair).1 tl (by simp)
          simpa using this
        · have := (List.pairwise_cons.mp hpair).1 t2 (by simp)
          simpa using this
      have hinv2 : BucketInv cfg (ts.headD tl)
          (check_rate_limit cfg st cid t).2 cid := by
        intro cd hcd
        rw [hcd2] at hcd
        cases hcd
        exact ⟨h1, h2, h3 ▸ hle,
          fun x hx => le_trans (h4 x hx).2 hle⟩
      obtain ⟨cd3, hcd3, g1, g2, g3, g4⟩ :=
        ih (check_rate_limit cfg st cid t).2 tl
          (List.pairwise_cons.mp hpair).2 hinv2
      refine ⟨cd3, ?_, g1, g2, g3, g4⟩
      simpa [run_checks] using hcd3

/-- Claim C9: along every chronological sequence of `check_rate_limit`
calls the per-client bucket satisfies `0 ≤ tokens ≤ burst_capacity`
after each call and its stored window holds only entries younger than
60 seconds; and on an existing bucket the allow decision of a call is
computed from the pruned window (entries younger than 60 seconds) and
the refilled token count. -/
theorem rate_limit_invariant_and_prune (cfg : RLConfig) (cid : String)
    (hen : cfg.rate_limit_enabled = true) :
    (∀ (times : List ℚ) (tl : ℚ), (times ++ [tl]).Pairwise (· ≤ ·) →
      ∃ cd, alistGet (run_checks cfg [] cid (times ++ [tl])).2 cid
          = some cd
        ∧ 0 ≤ cd.burst_tokens ∧ cd.burst_tokens ≤ (cfg.burst_size : ℤ)
        ∧ ∀ t ∈ cd.requests, tl - t < 60)
    ∧ (∀ (st : RateMap) (now : ℚ) (cd : ClientData),
        alistGet st cid = some cd →
        ((check_rate_limit cfg st cid now).1 = true ↔
          ((cd.requests.filter (fun t => now - t < 60)).length
              < cfg.requests_per_minute
            ∧ 0 < min ((cfg.burst_size : ℤ))
              (cd.burst_tokens + pyInt ((now - cd.last_refill)
                * (cfg.requests_per_minute : ℚ) / 60))))) := by
  constructor
  · intro times tl hpair
    have hinv0 : BucketInv cfg (times.headD tl) ([] : RateMap) cid := by
      intro cd hcd
      simp [alistGet] at hcd
    obtain ⟨cd, hcd, h1, h2, _, h4⟩ :=
      run_checks_inv cfg cid hen times [] tl hpair hinv0
    exact ⟨cd, hcd, h1, h2, fun t ht => (h4 t ht).1⟩
  · intro st now cd hcd
    unfold check_rate_limit
    rw [if_neg (by simp [hen])]
    simp only [hcd, Option.getD_some]
    split_ifs with h1 h2
    · simp only [false_iff, not_and]
      intro hlt
      exact absurd hlt (by omega)
    · simp only [false_iff, not_and]
      intro _
      exact not_lt.mpr h2
    · simp only [true_iff]
      exact ⟨lt_of_not_ge h1, not_le.mp h2⟩

/-- Witness for C9 at a concrete two-call run. -/
theorem rate_limit_invariant_and_prune_witness :
    ∃ cd, alistGet
        (run_checks ⟨true, 60, 10⟩ [] "10.0.0.1" ([0] ++ [1])).2
        "10.0.0.1" = some cd
      ∧ 0 ≤ cd.burst_tokens ∧ cd.burst_tokens ≤ ((10:ℕ) : ℤ)
      ∧ ∀ t ∈ cd.requests, 1 - t < 60 :=
  (rate_limit_invariant_and_prune ⟨true, 60, 10⟩ "10.0.0.1" rfl).1
    [0] 1 (by decide)

/-- Claim C8 (amended): on an existing bucket, the refill step of
`check_rate_limit` sets the token count to
`min(burst_capacity, tokens + int(elapsed * requests_per_minute / 60))`
— the integer truncation (floor, for nonnegative elapsed time) of the
exact rational product — and the admitted call then consumes one token.
Because the fractional refill progress is discarded at every call and
`last_refill` is reset to `now`, accumulated tokens depend on how often
check is called, not only on total elapsed time. -/
theorem check_rate_limit_refill_floor (cfg : RLConfig) (st : RateMap)
    (cid : String) (now : ℚ) (cd : ClientData)
    (hen : cfg.rate_limit_enabled = true)
    (hcd : alistGet st cid = some cd)
    (hle : cd.last_refill ≤ now) :
    ∃ cd2, alistGet (check_rate_limit cfg st cid now).2 cid = some cd2
      ∧ ((check_rate_limit cfg st cid now).1 = false →
          cd2.burst_tokens = min ((cfg.burst_size : ℤ))
            (cd.burst_tokens + ⌊(now - cd.last_refill)
              * (cfg.requests_per_minute : ℚ) / 60⌋))
      ∧ ((check_rate_limit cfg st cid now).1 = true →
          cd2.burst_tokens = min ((cfg.burst_size : ℤ))
            (cd.burst_tokens + ⌊(now - cd.last_refill)
              * (cfg.requests_per_minute : ℚ) / 60⌋) - 1) := by
  have hfl : pyInt ((now - cd.last_refill)
      * (cfg.requests_per_minute : ℚ) / 60)
      = ⌊(now - cd.last_refill) * (cfg.requests_per_minute : ℚ) / 60⌋ := by
    rw [pyInt, if_pos]
    have h0 : (0:ℚ) ≤ now - cd.last_refill := by linarith
    positivity
  unfold check_rate_limit
  rw [if_neg (by simp [hen])]
  simp only [hcd, Option.getD_some, hfl]
  split_ifs with h1 h2
  · exact ⟨_, alistGet_alistSet_eq _ _ _, fun _ => rfl,
      fun h => by simp at h⟩
  · exact ⟨_, alistGet_alistSet_eq _ _ _, fun _ => rfl,
      fun h => by simp at h⟩
  · exact ⟨_, alistGet_alistSet_eq _ _ _, fun h => by simp at h,
      fun _ => rfl⟩

/-- Counterexample to claim C8 as stated: with `requests_per_minute=1`
and `burst_size=1`, the histories `[0, 30, 60]` and `[0, 60]` disagree
on the shared final call at `t=60` — the intermediate (denied) call at
`t=30` discarded half a token of refill progress, so accumulation
depends on call frequency, not only on elapsed time. -/
theorem refill_truncation_counterexample :
    (run_checks ⟨true, 1, 1⟩ [] "c" [0, 30, 60]).1
      = [true, false, false]
    ∧ (run_checks ⟨true, 1, 1⟩ [] "c" [0, 60]).1 = [true, true] := by
  refine ⟨?_, ?_⟩ <;>
    norm_num [run_checks, check_rate_limit, alistGet, alistSet, pyInt]

/-- Witness for C8 (amended) at a concrete bucket: 30 seconds of
elapsed time at one request per minute refills `⌊1/2⌋ = 0` tokens. -/
theorem check_rate_limit_refill_floor_witness :
    ∃ cd2, alistGet
        (check_rate_limit ⟨true, 1, 1⟩ [("c", ⟨[0], 0, 0⟩)] "c" 30).2
        "c" = some cd2
      ∧ ((check_rate_limit ⟨true, 1, 1⟩ [("c", ⟨[0], 0, 0⟩)] "c" 30).1
            = false →
          cd2.burst_tokens = min (((1:ℕ):ℤ))
            ((0:ℤ) + ⌊((30:ℚ) - 0) * ((1:ℕ):ℚ) / 60⌋))
      ∧ ((check_rate_limit ⟨true, 1, 1⟩ [("c", ⟨[0], 0, 0⟩)] "c" 30).1
            = true →
          cd2.burst_tokens = min (((1:ℕ):ℤ))
            ((0:ℤ) + ⌊((30:ℚ) - 0) * ((1:ℕ):ℚ) / 60⌋) - 1) :=
  check_rate_limit_refill_floor ⟨true, 1, 1⟩ [("c", ⟨[0], 0, 0⟩)] "c"
    30 ⟨[0], 0, 0⟩ rfl (by decide) (by norm_num)

/-- Helper: a run over a concatenation is the two runs in sequence. -/
theorem run_checks_append (cfg : RLConfig) (st : RateMap) (cid : String)
    (xs ys : List ℚ) :
    run_checks cfg st cid (xs ++ ys)
      = ((run_checks cfg st cid xs).1
          ++ (run_checks cfg (run_checks cfg st cid xs).2 cid ys).1,
         (run_checks cfg (run_checks cfg st cid xs).2 cid ys).2) := by
  induction xs generalizing st with
  | nil => simp [run_checks]
  | cons t ts ih => simp [run_checks, ih]

/-- Helper: with `j` spent tokens and `j` window entries at the same
instant, a further call at that instant is admitted while `j < B < R`. -/
theorem same_instant_step (R B j : ℕ) (cid : String) (t0 : ℚ)
    (hjB : j < B) (hBR : B < R) :
    check_rate_limit ⟨true, R, B⟩
      [(cid, ⟨List.replicate j t0, (B:ℤ) - (j:ℤ), t0⟩)] cid t0
    = (true,
       [(cid, ⟨List.replicate (j+1) t0, (B:ℤ) - ((j:ℤ)+1), t0⟩)]) := by
  unfold check_rate_limit
  rw [if_neg (by simp)]
  have hget : alistGet
      [(cid, (⟨List.replicate j t0, (B:ℤ) - (j:ℤ), t0⟩ : ClientData))]
      cid = some ⟨List.replicate j t0, (B:ℤ) - (j:ℤ), t0⟩ := by
    simp [alistGet]
  simp only [hget, Option.getD_some]
  have e0 : (t0 - t0) * ((R:ℕ):ℚ) / 60 = 0 := by ring
  rw [e0]
  have e1 : pyInt 0 = 0 := by simp [pyInt]
  rw [e1]
  have e2 : List.filter (fun t => decide (t0 - t < 60))
      (List.replicate j t0) = List.replicate j t0 := by
    apply List.filter_eq_self.mpr
    intro a ha
    rw [List.eq_of_mem_replicate ha]
    norm_num
  rw [e2]
  rw [if_neg (by simp [List.length_replicate]; omega)]
  have e3 : min ((B:ℤ)) ((B:ℤ) - (j:ℤ) + 0) = (B:ℤ) - (j:ℤ) := by
    rw [add_zero]
    exact min_eq_right (by omega)
  rw [e3]
  rw [if_neg (by omega)]
  simp [alistSet, List.replicate_succ', ClientData.mk.injEq]
  omega

/-- Helper: from `j` spent tokens, `m` further same-instant calls are
all admitted while `j + m ≤ B < R`. -/
theorem same_instant_calls (R B : ℕ) (cid : String) (t0 : ℚ)
    (hBR : B < R) :
    ∀ (m j : ℕ), j + m ≤ B →
    run_checks ⟨true, R, B⟩
      [(cid, ⟨List.replicate j t0, (B:ℤ) - (j:ℤ), t0⟩)] cid
      (List.replicate m t0)
    = (List.replicate m true,
       [(cid, ⟨List.replicate (j+m) t0,
         (B:ℤ) - ((j:ℤ)+(m:ℤ)), t0⟩)]) := by
  intro m
  induction m with
  | zero =>
      intro j hj
      simp [run_checks]
  | succ m ih =>
      intro j hj
      have hstep := same_instant_step R B j cid t0 (by omega) hBR
      rw [List.replicate_succ]
      simp only [run_checks, hstep]
      have ih2 := ih (j+1) (by omega)
      push_cast at ih2 ⊢
      rw [ih2]
      rw [show j + 1 + m = j + (m + 1) by omega]
      simp [List.replicate_succ, ClientData.mk.injEq]
      ring

/-- Helper: with all burst tokens spent, one more same-instant call is
denied and leaves the bucket unchanged. -/
theorem exhausted_same_instant_deny (R B : ℕ) (cid : String) (t0 : ℚ)
    (hBR : B < R) :
    check_rate_limit ⟨true, R, B⟩
      [(cid, ⟨List.replicate B t0, 0, t0⟩)] cid t0
    = (false, [(cid, ⟨List.replicate B t0, 0, t0⟩)]) := by
  unfold check_rate_limit
  rw [if_neg (by simp)]
  have hget : alistGet
      [(cid, (⟨List.replicate B t0, 0, t0⟩ : ClientData))] cid
      = some ⟨List.replicate B t0, 0, t0⟩ := by
    simp [alistGet]
  simp only [hget, Option.getD_some]
  have e0 : (t0 - t0) * ((R:ℕ):ℚ) / 60 = 0 := by ring
  rw [e0]
  have e1 : pyInt 0 = 0 := by simp [pyInt]
  rw [e1]
  have e2 : List.filter (fun t => decide (t0 - t < 60))
      (List.replicate B t0) = List.replicate B t0 := by
    apply List.filter_eq_self.mpr
    intro a ha
    rw [List.eq_of_mem_replicate ha]
    norm_num
  rw [e2]
  rw [if_neg (by simp [List.length_replicate]; omega)]
  have e3 : min ((B:ℤ)) ((0:ℤ) + 0) = 0 := by
    rw [add_zero]
    exact min_eq_right (Int.ofNat_nonneg B)
  rw [e3]
  rw [if_pos (le_refl (0:ℤ))]
  simp [alistSet]

/-- Helper: after waiting exactly `60/R` seconds on an exhausted
bucket, the truncated refill grants exactly one token, so one call is
admitted and re-exhausts the bucket. -/
theorem refill_after_wait_allow (R B : ℕ) (cid : String) (t0 : ℚ)
    (hB : 1 ≤ B) (hBR : B < R) :
    check_rate_limit ⟨true, R, B⟩
      [(cid, ⟨List.replicate B t0, 0, t0⟩)] cid (t0 + 60/((R:ℕ):ℚ))
    = (true, [(cid, ⟨List.replicate B t0 ++ [t0 + 60/((R:ℕ):ℚ)], 0,
        t0 + 60/((R:ℕ):ℚ)⟩)]) := by
  have hR1 : 1 < R := by omega
  have hRQ : (1:ℚ) < ((R:ℕ):ℚ) := by exact_mod_cast hR1
  have hR0 : (0:ℚ) < ((R:ℕ):ℚ) := lt_trans zero_lt_one hRQ
  have hRne : ((R:ℕ):ℚ) ≠ 0 := ne_of_gt hR0
  unfold check_rate_limit
  rw [if_neg (by simp)]
  have hget : alistGet
      [(cid, (⟨List.replicate B t0, 0, t0⟩ : ClientData))] cid
      = some ⟨List.replicate B t0, 0, t0⟩ := by
    simp [alistGet]
  simp only [hget, Option.getD_some]
  have e0 : (t0 + 60/((R:ℕ):ℚ) - t0) * ((R:ℕ):ℚ) / 60 = 1 := by
    field_simp
    ring
  rw [e0]
  have e1 : pyInt 1 = 1 := by simp [pyInt]
  rw [e1]
  have e2 : List.filter
      (fun t => decide (t0 + 60/((R:ℕ):ℚ) - t < 60))
      (List.replicate B t0) = List.replicate B t0 := by
    apply List.filter_eq_self.mpr
    intro a ha
    rw [List.eq_of_mem_replicate ha]
    have h60 : 60 / ((R:ℕ):ℚ) < 60 := div_lt_self (by norm_num) hRQ
    simp only [decide_eq_true_eq]
    linarith
  rw [e2]
  rw [if_neg (by simp [List.length_replicate]; omega)]
  have e3 : min ((B:ℤ)) ((0:ℤ) + 1) = 1 := by
    rw [zero_add]
    exact min_eq_right (by exact_mod_cast hB)
  rw [e3]
  rw [if_neg (by norm_num)]
  norm_num [alistSet]

/-- Helper: immediately after the refilled token is spent, a further
call at the same instant is denied. -/
theorem exhausted_after_refill_deny (R B : ℕ) (cid : String) (t0 : ℚ)
    (hB : 1 ≤ B) (hBR : B < R) :
    (check_rate_limit ⟨true, R, B⟩
      [(cid, ⟨List.replicate B t0 ++ [t0 + 60/((R:ℕ):ℚ)], 0,
        t0 + 60/((R:ℕ):ℚ)⟩)] cid (t0 + 60/((R:ℕ):ℚ))).1 = false := by
  unfold check_rate_limit
  rw [if_neg (by simp)]
  have hget : alistGet
      [(cid, (⟨List.replicate B t0 ++ [t0 + 60/((R:ℕ):ℚ)], 0,
        t0 + 60/((R:ℕ):ℚ)⟩ : ClientData))] cid
      = some ⟨List.replicate B t0 ++ [t0 + 60/((R:ℕ):ℚ)], 0,
        t0 + 60/((R:ℕ):ℚ)⟩ := by
    simp [alistGet]
  simp only [hget, Option.getD_some]
  have e0 : (t0 + 60/((R:ℕ):ℚ) - (t0 + 60/((R:ℕ):ℚ)))
      * ((R:ℕ):ℚ) / 60 = 0 := by ring
  rw [e0]
  have e1 : pyInt 0 = 0 := by simp [pyInt]
  rw [e1]
  have e3 : min ((B:ℤ)) ((0:ℤ) + 0) = 0 := by
    rw [add_zero]
    exact min_eq_right (Int.ofNat_nonneg B)
  rw [e3]
  split_ifs with h1 h2
  · rfl
  · rfl
  · exact absurd (le_refl (0:ℤ)) h2

/-- Claim C7 (amended): for a client with no prior history, burst
capacity `B` and rate `R` per minute with `1 ≤ B < R`: `B` calls at the
same instant are all allowed, the `(B+1)`th immediate call is denied,
after waiting exactly `60/R` seconds exactly one further call is
allowed, and a second immediate call after it is denied again.  (For
`B ≥ R` the sliding-window gate denies some of the first `B` immediate
calls, and for `B = 0` the capped refill never grants a token, so the
claim as stated fails there.) -/
theorem rate_limit_burst_behaviour (B R : ℕ) (cid : String) (t0 : ℚ)
    (hB : 1 ≤ B) (hBR : B < R) :
    (run_checks ⟨true, R, B⟩ [] cid
      (List.replicate (B+1) t0
        ++ [t0 + 60/((R:ℕ):ℚ), t0 + 60/((R:ℕ):ℚ)])).1
    = List.replicate B true ++ [false, true, false] := by
  have hzero : check_rate_limit ⟨true, R, B⟩ [] cid t0
      = check_rate_limit ⟨true, R, B⟩
        [(cid, ⟨List.replicate 0 t0, (B:ℤ) - ((0:ℕ):ℤ), t0⟩)] cid t0 := by
    simp [check_rate_limit, alistGet, alistSet]
  have hfirst2 : check_rate_limit ⟨true, R, B⟩ [] cid t0
      = (true, [(cid, ⟨List.replicate 1 t0, (B:ℤ) - 1, t0⟩)]) := by
    rw [hzero, same_instant_step R B 0 cid t0 (by omega) hBR]
    norm_num
  have hph2 : run_checks ⟨true, R, B⟩
      [(cid, ⟨List.replicate 1 t0, (B:ℤ) - 1, t0⟩)] cid
      (List.replicate (B-1) t0)
      = (List.replicate (B-1) true,
         [(cid, ⟨List.replicate B t0, 0, t0⟩)]) := by
    have hph := same_instant_calls R B cid t0 hBR (B-1) 1 (by omega)
    rw [show (1:ℕ) + (B-1) = B by omega] at hph
    have e : ((B:ℤ) - (((1:ℕ):ℤ) + (((B-1):ℕ):ℤ))) = 0 := by omega
    rw [e] at hph
    norm_num at hph
    exact hph
  have hdeny := exhausted_same_instant_deny R B cid t0 hBR
  have hallow := refill_after_wait_allow R B cid t0 hB hBR
  have hdeny2 := exhausted_after_refill_deny R B cid t0 hB hBR
  have hlist : List.replicate (B+1) t0
      ++ [t0 + 60/((R:ℕ):ℚ), t0 + 60/((R:ℕ):ℚ)]
      = t0 :: (List.replicate (B-1) t0
          ++ [t0, t0 + 60/((R:ℕ):ℚ), t0 + 60/((R:ℕ):ℚ)]) := by
    rw [List.replicate_succ]
    simp only [List.cons_append]
    congr 1
    conv_lhs => rw [show B = (B-1) + 1 by omega, List.replicate_succ']
    simp
  rw [hlist]
  simp only [run_checks, run_checks_append, hfirst2, hph2, hdeny,
    hallow, hdeny2]
  rw [show List.replicate B true = true :: List.replicate (B-1) true by
    conv_lhs => rw [show B = (B-1) + 1 by omega]
    rw [List.replicate_succ]]
  simp

/-- Counterexample to claim C7 as stated: with burst capacity `B = 2`
and rate `R = 1` per minute, the second of `B` same-instant calls is
already denied by the sliding-window gate. -/
theorem rate_limit_burst_counterexample :
    (run_checks ⟨true, 1, 2⟩ [] "c" [0, 0]).1 = [true, false] := by
  norm_num [run_checks, check_rate_limit, alistGet, alistSet, pyInt]

/-- Witness for C7 (amended) at `B = 1`, `R = 2`. -/
theorem rate_limit_burst_behaviour_witness :
    (run_checks ⟨true, 2, 1⟩ [] "c"
      (List.replicate 2 0 ++ [0 + 60/((2:ℕ):ℚ), 0 + 60/((2:ℕ):ℚ)])).1
    = List.replicate 1 true ++ [false, true, false] :=
  rate_limit_burst_behaviour 1 2 "c" 0 (by omega) (by omega)

end FastapiAuth
